import Mathlib

/-!
Verification of the CSV report parser (src/services/csvParser.ts).

Shallow embedding conventions:
* JavaScript strings are modelled as `List Char`.
* JavaScript numbers produced by `parseFloat` are modelled exactly: the
  inductive `JSNum` distinguishes finite values (exact rationals built by
  `decVal`), the two infinities, and NaN.  The source never performs
  arithmetic on parsed amounts, so exact decimal semantics is faithful
  (IEEE doubles would only round the final value).
* JavaScript `Date` objects are modelled by `Option Int`: `some ms` is the
  internal time value in milliseconds (proleptic Gregorian calendar,
  ECMA-262 MakeDay/MakeTime/TimeClip), `none` is an Invalid Date (NaN time
  value, produced by a NaN component or a clipped range).  Local-time
  getters are modelled directly on the stored value, since the constructor
  and the getters use the same local offset, which cancels.
* Partial JavaScript operations (array indexing, parseInt) are modelled
  with `Option` / explicit defaults exactly as the source consumes them.
* `trim`, whitespace and lowercasing are modelled on the ASCII range; the
  signature substrings and all guards in the source are ASCII.
-/

/-! ### Basic string utilities -/

def jsWhitespace (c : Char) : Bool :=
  c = ' ' || c = '\t' || c = '\n' || c = '\r' || c = '\x0b' || c = '\x0c'

/-- JavaScript `String.prototype.trim`: drop whitespace from both ends. -/
def jsTrim (l : List Char) : List Char :=
  ((l.dropWhile jsWhitespace).reverse.dropWhile jsWhitespace).reverse

/-- `replace(/['"]/g, "")`: remove every single and double quote. -/
def removeQuotes (l : List Char) : List Char :=
  l.filter (fun c => !(c = '\'' || c = '"'))

/-- Does `pat` occur at the start of `l`? -/
def leadsWith : List Char → List Char → Bool
  | [], _ => true
  | _ :: _, [] => false
  | p :: ps, c :: cs => p = c && leadsWith ps cs

/-- JavaScript `includes`: does `pat` occur anywhere in the second list? -/
def hasSub (pat : List Char) : List Char → Bool
  | [] => leadsWith pat []
  | c :: cs => leadsWith pat (c :: cs) || hasSub pat cs

/-- JavaScript `replace(pat, rep)` with a string pattern: first occurrence only. -/
def replaceFirst (pat rep : List Char) : List Char → List Char
  | [] => if leadsWith pat [] then rep else []
  | c :: cs =>
      if leadsWith pat (c :: cs) then rep ++ (c :: cs).drop pat.length
      else c :: replaceFirst pat rep cs

/-- ASCII lowercasing, as used on the guard substrings of the source. -/
def toLowerList (l : List Char) : List Char := l.map Char.toLower

/-- JavaScript `split(sep)` for a single-character separator. -/
def splitChar (sep : Char) : List Char → List (List Char)
  | [] => [[]]
  | c :: rest =>
      if c = sep then [] :: splitChar sep rest
      else
        match splitChar sep rest with
        | [] => [[c]]
        | f :: fs => (c :: f) :: fs

/-- `csvText.split(/\r\n|\n/)`. -/
def splitLines : List Char → List (List Char)
  | [] => [[]]
  | '\r' :: '\n' :: rest => [] :: splitLines rest
  | '\n' :: rest => [] :: splitLines rest
  | c :: rest =>
      match splitLines rest with
      | [] => [[c]]
      | f :: fs => (c :: f) :: fs

/-! ### JavaScript numbers: parseInt / parseFloat -/

def digitsVal (l : List Char) : Nat :=
  l.foldl (fun a c => a * 10 + (c.toNat - 48)) 0

/-- `parseInt(s, 10)`: skip whitespace, optional sign, then a digit prefix;
`none` models NaN (no digits). -/
def parseIntJS (l : List Char) : Option Int :=
  match l.dropWhile jsWhitespace with
  | '-' :: r =>
      let ds := r.takeWhile Char.isDigit
      if ds.isEmpty then none else some (-(digitsVal ds : Int))
  | '+' :: r =>
      let ds := r.takeWhile Char.isDigit
      if ds.isEmpty then none else some (digitsVal ds : Int)
  | r =>
      let ds := r.takeWhile Char.isDigit
      if ds.isEmpty then none else some (digitsVal ds : Int)

/-- A JavaScript number as produced by `parseFloat`. -/
inductive JSNum where
  | finite (q : ℚ)
  | inf
  | negInf
  | nan

/-- The exact value of a parsed decimal literal: `sign * mant / 10^frac * 10^e`.
`mant` is the concatenated integer-and-fraction digit value, `frac` the
number of fraction digits, `e` the exponent. -/
def decVal (neg : Bool) (mant : Nat) (frac : Nat) (e : Int) : ℚ :=
  (if neg then -1 else 1) * ((mant : ℚ) / (10 : ℚ) ^ frac) * (10 : ℚ) ^ e

/-- Exponent part of a float literal: optional sign and digits; an exponent
with no digits contributes nothing (the `e` is not consumed as a number). -/
def expVal (l : List Char) : Int :=
  match l with
  | '-' :: t =>
      let ds := t.takeWhile Char.isDigit
      if ds.isEmpty then 0 else -(digitsVal ds : Int)
  | '+' :: t =>
      let ds := t.takeWhile Char.isDigit
      if ds.isEmpty then 0 else (digitsVal ds : Int)
  | t =>
      let ds := t.takeWhile Char.isDigit
      if ds.isEmpty then 0 else (digitsVal ds : Int)

def strInf : List Char := "Infinity".toList

/-- The fraction digits following the integer digits: the part after a
leading `.` of the remainder. -/
def fracDigits (r1 : List Char) : List Char :=
  match r1 with
  | '.' :: t => t.takeWhile Char.isDigit
  | _ => []

/-- The remainder after the optional fraction part. -/
def afterFrac (r1 : List Char) : List Char :=
  match r1 with
  | '.' :: t => t.dropWhile Char.isDigit
  | _ => r1

/-- The exponent contributed by an optional `e`/`E` part. -/
def expOf (r2 : List Char) : Int :=
  match r2 with
  | 'e' :: t => expVal t
  | 'E' :: t => expVal t
  | _ => 0

/-- The unsigned part of `parseFloat`: `Infinity`, or digits, optional
fraction, optional exponent; NaN when no digit is found. -/
def parseUnsigned (neg : Bool) (l : List Char) : JSNum :=
  if leadsWith strInf l then (if neg then JSNum.negInf else JSNum.inf)
  else if (l.takeWhile Char.isDigit).isEmpty && (fracDigits (l.dropWhile Char.isDigit)).isEmpty then
    JSNum.nan
  else
    JSNum.finite (decVal neg
      (digitsVal (l.takeWhile Char.isDigit ++ fracDigits (l.dropWhile Char.isDigit)))
      (fracDigits (l.dropWhile Char.isDigit)).length
      (expOf (afterFrac (l.dropWhile Char.isDigit))))

/-- `parseFloat(s)`: skip whitespace, optional sign, unsigned part. -/
def parseFloatJS (l : List Char) : JSNum :=
  match l.dropWhile jsWhitespace with
  | [] => parseUnsigned false []
  | c :: r =>
      if c = '-' then parseUnsigned true r
      else if c = '+' then parseUnsigned false r
      else parseUnsigned false (c :: r)

/-! ### parseCurrency (csvParser.ts lines 3-20) -/

def strRS : List Char := "R$".toList

/-- The cleaning pipeline of `parseCurrency`: strip quotes, remove the
first `R$`, trim; if both `.` and `,` occur, drop every `.` (thousands
separator); replace the first `,` by `.`. -/
def cleanCurrency (value : List Char) : List Char :=
  replaceFirst [','] ['.']
    (if (jsTrim (replaceFirst strRS [] (removeQuotes value))).contains '.'
        && (jsTrim (replaceFirst strRS [] (removeQuotes value))).contains ',' then
      (jsTrim (replaceFirst strRS [] (removeQuotes value))).filter (fun c => !(c = '.'))
    else jsTrim (replaceFirst strRS [] (removeQuotes value)))

/-- `parseCurrency`: empty input is 0; otherwise clean and `parseFloat`,
with NaN normalized to 0. -/
def parseCurrency (value : List Char) : JSNum :=
  if value.isEmpty then JSNum.finite 0
  else
    match parseFloatJS (cleanCurrency value) with
    | JSNum.nan => JSNum.finite 0
    | n => n

/-- Nonnegativity of a JavaScript number (`NaN >= 0` is false). -/
def jsNonneg : JSNum → Prop
  | JSNum.finite q => 0 ≤ q
  | JSNum.inf => True
  | JSNum.negInf => False
  | JSNum.nan => False

/-! ### determineCycleType (csvParser.ts lines 22-29) -/

inductive CycleType where
  | WASH
  | DRY
  | UNKNOWN
deriving DecidableEq

def strLava : List Char := "lava".toList
def strSeca : List Char := "seca".toList

/-- `determineCycleType`: empty name is UNKNOWN; otherwise lowercase and
look for `lava` (WASH) then `seca` (DRY). -/
def determineCycleType (productName : List Char) : CycleType :=
  if productName.isEmpty then CycleType.UNKNOWN
  else
    let lower := toLowerList productName
    if hasSub strLava lower then CycleType.WASH
    else if hasSub strSeca lower then CycleType.DRY
    else CycleType.UNKNOWN

example : parseCurrency [] = JSNum.finite 0 := rfl
example : determineCycleType [] = CycleType.UNKNOWN := by decide

/-! ### The proleptic Gregorian calendar of ECMA-262 Date

`daysFromCivil` maps a calendar date (month 1..12) to its day number
relative to 1970-01-01; `civilFromDays` is the inverse.  These implement
the day-number correspondence on which MakeDay / YearFromTime /
MonthFromTime / DateFromTime of ECMA-262 are specified. -/

def isLeap (y : Int) : Prop := (y % 4 = 0 ∧ ¬ (y % 100 = 0)) ∨ y % 400 = 0

instance (y : Int) : Decidable (isLeap y) := by unfold isLeap; infer_instance

def daysInMonth (y m : Int) : Int :=
  if m = 2 then (if isLeap y then 29 else 28)
  else if m = 4 ∨ m = 6 ∨ m = 9 ∨ m = 11 then 30 else 31

/-- Day of the March-based year for month `m` (1..12), day `d`. -/
def dfcDoy (m d : Int) : Int := (153 * (if 2 < m then m - 3 else m + 9) + 2) / 5 + d - 1

/-- Day number from a March-based year `yy` and day-of-year `doy`. -/
def dfcZ (yy doy : Int) : Int :=
  (yy / 400) * 146097 + (365 * (yy % 400) + (yy % 400) / 4 - (yy % 400) / 100 + doy) - 719468

def daysFromCivil (y m d : Int) : Int := dfcZ (if m ≤ 2 then y - 1 else y) (dfcDoy m d)

def cfdEra (z : Int) : Int := (z + 719468) / 146097
def cfdDoe (z : Int) : Int := (z + 719468) % 146097
def cfdYoe (z : Int) : Int :=
  (cfdDoe z - cfdDoe z / 1460 + cfdDoe z / 36524 - cfdDoe z / 146096) / 365
def cfdDoy (z : Int) : Int := cfdDoe z - (365 * cfdYoe z + cfdYoe z / 4 - cfdYoe z / 100)
def cfdMp (z : Int) : Int := (5 * cfdDoy z + 2) / 153
def cfdDay (z : Int) : Int := cfdDoy z - (153 * cfdMp z + 2) / 5 + 1
def cfdMonth (z : Int) : Int := if cfdMp z < 10 then cfdMp z + 3 else cfdMp z - 9
def cfdYear (z : Int) : Int := (cfdYoe z + cfdEra z * 400) + (if cfdMonth z ≤ 2 then 1 else 0)

example : daysFromCivil 1970 1 1 = 0 := by decide
example : daysFromCivil 2024 1 1 = 19723 := by decide
example : (cfdYear 19723, cfdMonth 19723, cfdDay 19723) = (2024, 1, 1) := by decide
example : daysFromCivil 2024 2 29 = 19782 := by decide
example : (cfdYear 19782, cfdMonth 19782, cfdDay 19782) = (2024, 2, 29) := by decide

/-! ### The Date model: constructor and getters -/

/-- `new Date(y, m0, d, h, mi, s)` (local time), as a time value in
milliseconds: the two-digit-year rule, MakeDay with month overflow
(`m0` is 0-based and may be any integer), MakeTime, and TimeClip.
`none` is an Invalid Date: a NaN argument or an out-of-range value. -/
def mkJsDate (oy om od oh omi os : Option Int) : Option Int :=
  match oy, om, od, oh, omi, os with
  | some y, some m0, some d, some h, some mi, some s =>
      let yr := if 0 ≤ y ∧ y ≤ 99 then y + 1900 else y
      let ym := yr + m0 / 12
      let mn := m0 % 12
      let day := daysFromCivil ym (mn + 1) 1 + (d - 1)
      let ms := day * 86400000 + h * 3600000 + mi * 60000 + s * 1000
      if -8640000000000000 ≤ ms ∧ ms ≤ 8640000000000000 then some ms else none
  | _, _, _, _, _, _ => none

def dayNumber (ms : Int) : Int := ms / 86400000

def getFullYear (ms : Int) : Int := cfdYear (dayNumber ms)
def getMonth (ms : Int) : Int := cfdMonth (dayNumber ms) - 1
def getDate (ms : Int) : Int := cfdDay (dayNumber ms)
def getHours (ms : Int) : Int := (ms / 3600000) % 24
def getMinutes (ms : Int) : Int := (ms / 60000) % 60
def getSeconds (ms : Int) : Int := (ms / 1000) % 60

/-- `getDay()`: 0 = Sunday; day 0 (1970-01-01) was a Thursday. -/
def getDay (ms : Int) : Int := (dayNumber ms + 4) % 7

example : getDay (19723 * 86400000) = 1 := by decide

/-! ### Round-trip of the calendar correspondence -/

theorem cfd_core (yy doy : Int) (h3 : 0 ≤ doy) (h4 : doy ≤ 365)
    (h5 : doy = 365 → ((yy + 1) % 4 = 0 ∧ ¬ ((yy + 1) % 100 = 0)) ∨ (yy + 1) % 400 = 0) :
    cfdEra (dfcZ yy doy) = yy / 400 ∧
    cfdDoe (dfcZ yy doy) = 365 * (yy % 400) + (yy % 400) / 4 - (yy % 400) / 100 + doy ∧
    cfdYoe (dfcZ yy doy) = yy % 400 ∧ cfdDoy (dfcZ yy doy) = doy := by
  have hera : cfdEra (dfcZ yy doy) = yy / 400 := by
    simp only [cfdEra, dfcZ]; omega
  have hdoe : cfdDoe (dfcZ yy doy) = 365 * (yy % 400) + (yy % 400) / 4 - (yy % 400) / 100 + doy := by
    simp only [cfdDoe, dfcZ]; omega
  have hyoe : cfdYoe (dfcZ yy doy) = yy % 400 := by
    rw [cfdYoe, hdoe]
    set yoe := yy % 400 with hyoedef
    set doe := 365 * yoe + yoe / 4 - yoe / 100 + doy with hdoedef
    have hyb : 0 ≤ yoe ∧ yoe ≤ 399 := by omega
    have hq : yoe = 100 * (yoe / 100) + 4 * ((yoe % 100) / 4) + (yoe % 100) % 4 := by omega
    set c := yoe / 100 with hc
    set a := (yoe % 100) / 4 with ha
    set b := (yoe % 100) % 4 with hb
    have hcr : 0 ≤ c ∧ c ≤ 3 ∧ 0 ≤ a ∧ a ≤ 24 ∧ 0 ≤ b ∧ b ≤ 3 := by omega
    have h4d : yoe / 4 = 25 * c + a := by omega
    have hdf : doe = 36524 * c + 1461 * a + 365 * b + doy := by omega
    have hle : doe ≤ 146096 := by omega
    rcases eq_or_lt_of_le hle with heq | hlt
    · have hmax : c = 3 ∧ a = 24 ∧ b = 3 ∧ doy = 365 := by omega
      have hdv1 : doe / 1460 = 100 := by omega
      have hdv2 : doe / 36524 = 4 := by omega
      have hdv3 : doe / 146096 = 1 := by omega
      omega
    · have hdv3 : doe / 146096 = 0 := by omega
      have hinner : 1461 * a + 365 * b + doy ≤ 36523 := by
        by_contra hcon
        push_neg at hcon
        have habd : a = 24 ∧ b = 3 ∧ doy = 365 := by omega
        have hlp := h5 (by omega)
        omega
      have hdv2 : doe / 36524 = c := by omega
      rcases le_or_lt 1460 (24 * c + a + 365 * b + doy) with hr | hr
      · have hdv1 : doe / 1460 = 25 * c + a + 1 := by omega
        omega
      · have hdv1 : doe / 1460 = 25 * c + a := by omega
        by_cases hdy : doy = 365
        · have hlp := h5 hdy
          omega
        · omega
  have hdoy : cfdDoy (dfcZ yy doy) = doy := by
    rw [cfdDoy, hdoe, hyoe]; omega
  exact ⟨hera, hdoe, hyoe, hdoy⟩

theorem doy_bounds (y m d : Int) (hm1 : 1 ≤ m) (hm2 : m ≤ 12) (hd1 : 1 ≤ d)
    (hd2 : d ≤ daysInMonth y m) :
    0 ≤ dfcDoy m d ∧ dfcDoy m d ≤ 365 ∧ (dfcDoy m d = 365 → m = 2 ∧ isLeap y) := by
  simp only [daysInMonth, isLeap] at hd2 ⊢
  simp only [dfcDoy]
  split_ifs at hd2 ⊢ <;> omega

/-- For a real calendar date with a four-digit year at least 100, the day
number computed by MakeDay is converted back to exactly the same calendar
fields by the Date getters. -/
theorem civil_roundtrip (y m d : Int)
    (hm1 : 1 ≤ m) (hm2 : m ≤ 12) (hd1 : 1 ≤ d) (hd2 : d ≤ daysInMonth y m) :
    cfdYear (daysFromCivil y m d) = y ∧ cfdMonth (daysFromCivil y m d) = m ∧
    cfdDay (daysFromCivil y m d) = d := by
  obtain ⟨hb1, hb2, hb3⟩ := doy_bounds y m d hm1 hm2 hd1 hd2
  have h5 : dfcDoy m d = 365 →
      (((if m ≤ 2 then y - 1 else y) + 1) % 4 = 0 ∧
        ¬ (((if m ≤ 2 then y - 1 else y) + 1) % 100 = 0)) ∨
      ((if m ≤ 2 then y - 1 else y) + 1) % 400 = 0 := by
    intro hdy
    obtain ⟨hm2', hleap⟩ := hb3 hdy
    simp only [isLeap] at hleap
    have hiy : (if m ≤ 2 then y - 1 else y) = y - 1 := by split <;> omega
    rw [hiy]
    omega
  obtain ⟨hera, hdoe, hyoe, hdoy⟩ := cfd_core _ _ hb1 hb2 h5
  rw [show daysFromCivil y m d = dfcZ (if m ≤ 2 then y - 1 else y) (dfcDoy m d) from rfl] at *
  set z := dfcZ (if m ≤ 2 then y - 1 else y) (dfcDoy m d) with hz
  have hdd : d ≤ daysInMonth y m := hd2
  simp only [daysInMonth, isLeap] at hdd
  have hmp : cfdMp z = (if 2 < m then m - 3 else m + 9) := by
    rw [cfdMp, hdoy]
    simp only [dfcDoy]
    interval_cases m <;> split_ifs at hdd ⊢ <;> omega
  have hmonth : cfdMonth z = m := by
    rw [cfdMonth, hmp]
    split_ifs <;> omega
  have hday : cfdDay z = d := by
    rw [cfdDay, hdoy, hmp]
    simp only [dfcDoy]
    interval_cases m <;> split_ifs at hdd ⊢ <;> omega
  have hyear : cfdYear z = y := by
    rw [cfdYear, hmonth, hera, hyoe]
    split_ifs <;> omega
  exact ⟨hyear, hmonth, hday⟩

/-! ### Output records (types.ts consumers, used as plain schemas) -/

/-- A parsed transaction record. -/
structure Transaction where
  id : List Char
  date : Option Int
  rawDate : List Char
  rawTime : List Char
  productName : List Char
  type : CycleType
  amount : JSNum
  paymentMethod : List Char
  machine : List Char
  dayOfWeek : Option Int

structure DashboardMetadata where
  unitName : List Char
  period : List Char
  reportType : List Char

structure ParseResult where
  metadata : DashboardMetadata
  transactions : List Transaction

inductive CsvFormat where
  | SELF_SERVICE
  | ATTENDANT
  | UNKNOWN
deriving DecidableEq

/-! ### Line-level helpers (csvParser.ts lines 42-52) -/

/-- `splitCsvLine`: split at a comma exactly when the rest of the line
contains an even number of double quotes (the lookahead of the regex). -/
def splitCsvLine : List Char → List (List Char)
  | [] => [[]]
  | c :: rest =>
      if c = ',' && (rest.count '"') % 2 = 0 then [] :: splitCsvLine rest
      else
        match splitCsvLine rest with
        | [] => [[c]]
        | f :: fs => (c :: f) :: fs

/-- `isLineEmpty`: blank, or blank after removing every comma. -/
def isLineEmpty (line : List Char) : Bool :=
  if (jsTrim line).isEmpty then true
  else (jsTrim (line.filter (fun c => !(c = ',')))).isEmpty

/-! ### Format detection and period extraction (lines 54-83) -/

def strProdutos : List Char := "Produtos".toList
def strTotalVenda : List Char := "Total Venda".toList
def strData : List Char := "Data".toList
def strNomeTerminal : List Char := "Nome Terminal".toList
def strVendaRS : List Char := "Venda (R$)".toList
def strHora : List Char := "Hora".toList
def strVendasDe : List Char := "Vendas de".toList
def strVendasDeSp : List Char := "Vendas de ".toList
def strAte : List Char := " ate ".toList
def strDash : List Char := " - ".toList
def strTotal : List Char := "Total".toList
def strOperador : List Char := "Operador:".toList
def strCliente : List Char := "cliente".toList
def defaultUnit : List Char := "Unidade Desconhecida".toList
def defaultPeriod : List Char := "Período não identificado".toList
def strATT : List Char := "ATTENDANT".toList
def strSS : List Char := "SELF_SERVICE".toList
def strZeroTime : List Char := "00:00:00".toList

def detectFormatGo : List (List Char) → CsvFormat
  | [] => CsvFormat.UNKNOWN
  | l :: ls =>
      if hasSub strProdutos l && hasSub strTotalVenda l && hasSub strData l then
        CsvFormat.SELF_SERVICE
      else if hasSub strNomeTerminal l && hasSub strVendaRS l && hasSub strData l then
        CsvFormat.ATTENDANT
      else detectFormatGo ls

/-- `detectFormat`: scan at most the first 5000 lines for a signature. -/
def detectFormat (lines : List (List Char)) : CsvFormat :=
  detectFormatGo (lines.take 5000)

def extractPeriodGo : List (List Char) → List Char
  | [] => defaultPeriod
  | l :: ls =>
      if hasSub strVendasDe l then
        match (splitChar ',' l).find? (fun p => hasSub strVendasDe p) with
        | some p =>
            jsTrim (removeQuotes (replaceFirst strAte strDash (replaceFirst strVendasDeSp [] p)))
        | none => extractPeriodGo ls
      else extractPeriodGo ls

/-- `extractPeriod`: scan at most the first 5000 lines for `Vendas de`. -/
def extractPeriod (lines : List (List Char)) : List Char :=
  extractPeriodGo (lines.take 5000)

/-! ### Row mapping (lines 85-205) -/

/-- `cols[k]?.replace(/['"]/g, "").trim() || dflt`. -/
def colVal (cols : List (List Char)) (k : Nat) (dflt : List Char) : List Char :=
  match cols.get? k with
  | none => dflt
  | some s =>
      let t := jsTrim (removeQuotes s)
      if t.isEmpty then dflt else t

/-- The `Operador:` scan of the SELF_SERVICE branch: first line starting
with `Operador:` whose second field is truthy gives the unit name. -/
def operadorScan : List (List Char) → Option (List Char)
  | [] => none
  | l :: ls =>
      if leadsWith strOperador l then
        match (splitCsvLine l).get? 1 with
        | some p => if p.isEmpty then operadorScan ls else some (jsTrim (removeQuotes p))
        | none => operadorScan ls
      else operadorScan ls

/-- Date-part accessors: `dateRaw.split('/')` then `parseInt(_, 10)`. -/
def dpD (dr : List Char) : Option Int := parseIntJS ((splitChar '/' dr).getD 0 [])
def dpM (dr : List Char) : Option Int := parseIntJS ((splitChar '/' dr).getD 1 [])
def dpY (dr : List Char) : Option Int := parseIntJS ((splitChar '/' dr).getD 2 [])

/-- `timeRaw ? timeRaw.split(':') : ['00','00','00']`. -/
def tParts (tr : List Char) : List (List Char) :=
  if tr.isEmpty then [['0', '0'], ['0', '0'], ['0', '0']]
  else splitChar ':' tr

/-- `parseInt(timeParts[k] || '0', 10)`. -/
def tpAt (tr : List Char) (k : Nat) : Option Int :=
  parseIntJS (let p := (tParts tr).getD k []; if p.isEmpty then ['0'] else p)

/-- `dateRaw.match(/^\d{2}\/\d{2}\/\d{4}$/)`. -/
def isDateFmt : List Char → Bool
  | [a, b, s1, c, d, s2, e, f, g, h] =>
      a.isDigit && b.isDigit && s1 = '/' && c.isDigit && d.isDigit && s2 = '/' &&
        e.isDigit && f.isDigit && g.isDigit && h.isDigit
  | _ => false

/-- The `new Date(...)` expression of the row loop, from the raw date and
time strings. -/
def mkDateOf (dr tr : List Char) : Option Int :=
  mkJsDate (dpY dr) ((dpM dr).map (fun x => x - 1)) (dpD dr) (tpAt tr 0) (tpAt tr 1) (tpAt tr 2)

def natDigits (n : Nat) : List Char := (Nat.repr n).toList

/-- The transaction id template literal. -/
def mkId (i : Nat) (dr tr mach : List Char) : List Char :=
  natDigits i ++ '-' :: dr ++ '-' :: tr ++ '-' :: mach

/-- The common tail of the row loop (lines 173-204): date-shape gate,
currency and cycle normalization, Date construction, record assembly. -/
def commonProcess (i : Nat) (u : List Char) (machineRaw amountRaw dateRaw timeRaw paymentRaw : List Char) :
    List Char × Option Transaction :=
  if isDateFmt dateRaw then
    if (splitChar '/' dateRaw).length = 3 then
      (u, some {
        id := mkId i dateRaw timeRaw machineRaw
        date := mkDateOf dateRaw timeRaw
        rawDate := dateRaw
        rawTime := timeRaw
        productName := machineRaw
        type := determineCycleType machineRaw
        amount := parseCurrency amountRaw
        paymentMethod := paymentRaw
        machine := machineRaw
        dayOfWeek := (mkDateOf dateRaw timeRaw).map getDay })
    else (u, none)
  else (u, none)

/-- The ATTENDANT unit-name update (lines 163-168). -/
def attUnitUpd (cols : List (List Char)) (u : List Char) : List Char :=
  if u = defaultUnit ∧ ¬ (cols.getD 0 []).isEmpty then
    let pn := jsTrim (removeQuotes (cols.getD 0 []))
    if ¬ pn.isEmpty ∧ ¬ (toLowerList pn = strCliente) then pn else u
  else u

/-- The SELF_SERVICE unit-name update (lines 137-147). -/
def ssUnitUpd (lines : List (List Char)) (u : List Char) : List Char :=
  if u = defaultUnit then
    match operadorScan (lines.take 50) with
    | some v => v
    | none => u
  else u

/-- One iteration of the row loop (lines 114-205). -/
def processRow (fmt : CsvFormat) (lines : List (List Char)) (row : List Char) (i : Nat)
    (u : List Char) : List Char × Option Transaction :=
  let line := jsTrim row
  if leadsWith strTotal line then (u, none)
  else
    let cols := splitCsvLine line
    match fmt with
    | CsvFormat.SELF_SERVICE =>
        if cols.length < 12 then (u, none)
        else
          commonProcess i (ssUnitUpd lines u)
            (colVal cols 6 []) (colVal cols 9 ['0']) (colVal cols 10 [])
            (colVal cols 11 strZeroTime) (colVal cols 4 [])
    | CsvFormat.ATTENDANT =>
        if cols.length < 14 then (u, none)
        else if (cols.getD 12 []).isEmpty || !((cols.getD 12 []).contains '/') then (u, none)
        else
          commonProcess i (attUnitUpd cols u)
            (colVal cols 4 []) (colVal cols 8 ['0']) (colVal cols 12 [])
            (colVal cols 13 strZeroTime) (colVal cols 5 [])
    | CsvFormat.UNKNOWN => (u, none)

/-- The row loop, threading the lazily-set unit name. -/
def processRows (fmt : CsvFormat) (lines : List (List Char)) :
    List (List Char) → Nat → List Char → List Char × List Transaction
  | [], _, u => (u, [])
  | row :: rest, i, u =>
      match processRow fmt lines row i u with
      | (u2, none) => processRows fmt lines rest (i + 1) u2
      | (u2, some tx) =>
          let p := processRows fmt lines rest (i + 1) u2
          (p.1, tx :: p.2)

/-- `lines`: the pre-cleaned line list (line 88-89). -/
def filteredLines (raw : List (List Char)) : List (List Char) :=
  raw.filter (fun l => !(isLineEmpty l))

/-- The header search (lines 97-112): first line containing both `Data`
and `Hora`; rows start after it, or at 0 when there is none (the warning
on line 109 is a diagnostic side effect with no influence on the result). -/
def startIdx (lines : List (List Char)) : Nat :=
  match lines.findIdx? (fun l => hasSub strData l && hasSub strHora l) with
  | none => 0
  | some i => i + 1

/-- `parseCSV` on the already-split raw line list. -/
def parseCSVLines (raw : List (List Char)) : ParseResult :=
  let lines := filteredLines raw
  let fmt := detectFormat lines
  let p := processRows fmt lines (lines.drop (startIdx lines)) (startIdx lines) defaultUnit
  { metadata :=
      { unitName := p.1
        period := extractPeriod lines
        reportType := if fmt = CsvFormat.ATTENDANT then strATT else strSS }
    transactions := p.2 }

/-- `parseCSV` (lines 85-215). -/
def parseCSV (csvText : List Char) : ParseResult :=
  parseCSVLines (splitLines csvText)

/-- The cleaned line list of an input text. -/
def linesOf (csvText : List Char) : List (List Char) :=
  filteredLines (splitLines csvText)

/-! ### Structural facts about the row loop -/

/-- Invariant of every emitted transaction: `machine` and `productName` are
the same column, `date` is rebuilt from the raw date and time strings by
the fixed parse rule, `dayOfWeek` comes from the constructed date, and the
raw date passed the shape gate. -/
def txInv (t : Transaction) : Prop :=
  t.machine = t.productName ∧ t.date = mkDateOf t.rawDate t.rawTime ∧
  t.dayOfWeek = t.date.map getDay ∧ isDateFmt t.rawDate = true

theorem commonProcess_fst (i : Nat) (u m a dr tr p : List Char) :
    (commonProcess i u m a dr tr p).1 = u := by
  unfold commonProcess; split_ifs <;> rfl

theorem commonProcess_some (i : Nat) (u m a dr tr p : List Char) (t : Transaction)
    (h : (commonProcess i u m a dr tr p).2 = some t) :
    t.machine = m ∧ t.productName = m ∧ t.rawDate = dr ∧ t.rawTime = tr ∧
    t.date = mkDateOf dr tr ∧ t.dayOfWeek = (mkDateOf dr tr).map getDay ∧
    isDateFmt dr = true := by
  unfold commonProcess at h
  split_ifs at h with h1 h2
  cases Option.some.inj h
  exact ⟨rfl, rfl, rfl, rfl, rfl, rfl, h1⟩

theorem txInv_of_common (i : Nat) (u m a dr tr p : List Char) (t : Transaction)
    (h : (commonProcess i u m a dr tr p).2 = some t) : txInv t := by
  obtain ⟨h1, h2, h3, h4, h5, h6, h7⟩ := commonProcess_some i u m a dr tr p t h
  refine ⟨h1.trans h2.symm, ?_, ?_, ?_⟩
  · rw [h3, h4]; exact h5
  · rw [h5]; exact h6
  · rw [h3]; exact h7

theorem processRow_some (fmt : CsvFormat) (lines : List (List Char)) (row : List Char)
    (i : Nat) (u : List Char) (t : Transaction)
    (h : (processRow fmt lines row i u).2 = some t) : txInv t := by
  simp only [processRow] at h
  cases fmt <;> split_ifs at h <;> exact txInv_of_common _ _ _ _ _ _ _ _ h

theorem processRows_some (fmt : CsvFormat) (lines : List (List Char)) :
    ∀ (rows : List (List Char)) (i : Nat) (u : List Char) (t : Transaction),
      t ∈ (processRows fmt lines rows i u).2 → txInv t := by
  intro rows
  induction rows with
  | nil => intro i u t ht; simp [processRows] at ht
  | cons row rest ih =>
      intro i u t ht
      simp only [processRows] at ht
      rcases hpr : processRow fmt lines row i u with ⟨u2, o⟩
      rw [hpr] at ht
      cases o with
      | none => exact ih (i + 1) u2 t ht
      | some tx =>
          simp only [List.mem_cons] at ht
          rcases ht with rfl | ht
          · exact processRow_some fmt lines row i u t (by rw [hpr])
          · exact ih (i + 1) u2 t ht

theorem processRows_len (fmt : CsvFormat) (lines : List (List Char)) :
    ∀ (rows : List (List Char)) (i : Nat) (u : List Char),
      (processRows fmt lines rows i u).2.length ≤ rows.length := by
  intro rows
  induction rows with
  | nil => intro i u; simp [processRows]
  | cons row rest ih =>
      intro i u
      simp only [processRows]
      rcases hpr : processRow fmt lines row i u with ⟨u2, o⟩
      cases o with
      | none => simpa using Nat.le_succ_of_le (ih (i + 1) u2)
      | some tx => simpa using ih (i + 1) u2

theorem processRow_unknown (lines : List (List Char)) (row : List Char) (i : Nat)
    (u : List Char) : processRow CsvFormat.UNKNOWN lines row i u = (u, none) := by
  simp only [processRow]
  split <;> rfl

theorem processRows_unknown (lines : List (List Char)) :
    ∀ (rows : List (List Char)) (i : Nat) (u : List Char),
      processRows CsvFormat.UNKNOWN lines rows i u = (u, []) := by
  intro rows
  induction rows with
  | nil => intro i u; rfl
  | cons row rest ih =>
      intro i u
      simp only [processRows, processRow_unknown]
      exact ih (i + 1) u

theorem extractPeriodGo_default :
    ∀ ls : List (List Char), (∀ l ∈ ls, hasSub strVendasDe l = false) →
      extractPeriodGo ls = defaultPeriod := by
  intro ls
  induction ls with
  | nil => intro _; rfl
  | cons l rest ih =>
      intro h
      simp only [extractPeriodGo]
      rw [h l (List.mem_cons_self l rest)]
      simp only [Bool.false_eq_true, if_false]
      exact ih (fun x hx => h x (List.mem_cons_of_mem l hx))

theorem getD_zero_mem {α : Type} (l : List α) (d : α) (h : 0 < l.length) : l.getD 0 d ∈ l := by
  cases l with
  | nil => simp at h
  | cons a as => simp [List.getD]

/-! ### Sign analysis of parseFloat, for currency nonnegativity -/

theorem decVal_false_nonneg (m f : Nat) (e : Int) : 0 ≤ decVal false m f e := by
  simp only [decVal, Bool.false_eq_true, if_false]
  positivity

theorem parseUnsigned_false_cases (l : List Char) :
    parseUnsigned false l = JSNum.inf ∨ parseUnsigned false l = JSNum.nan ∨
    ∃ m f e, parseUnsigned false l = JSNum.finite (decVal false m f e) := by
  unfold parseUnsigned
  by_cases h1 : leadsWith strInf l = true
  · rw [if_pos h1]; left; rfl
  · rw [if_neg h1]
    by_cases h2 : ((l.takeWhile Char.isDigit).isEmpty
        && (fracDigits (l.dropWhile Char.isDigit)).isEmpty) = true
    · rw [if_pos h2]; right; left; rfl
    · rw [if_neg h2]; right; right; exact ⟨_, _, _, rfl⟩

theorem mem_replaceFirst (a : Char) (pat rep : List Char) :
    ∀ l : List Char, a ∈ replaceFirst pat rep l → a ∈ rep ∨ a ∈ l := by
  intro l
  induction l with
  | nil =>
      intro hm
      simp only [replaceFirst] at hm
      split_ifs at hm
      · exact Or.inl hm
      · exact absurd hm (List.not_mem_nil a)
  | cons c cs ih =>
      intro hm
      simp only [replaceFirst] at hm
      split_ifs at hm
      · rcases List.mem_append.mp hm with h | h
        · exact Or.inl h
        · exact Or.inr (List.drop_subset _ _ h)
      · rcases List.mem_cons.mp hm with rfl | h
        · exact Or.inr (List.mem_cons_self _ _)
        · rcases ih h with h' | h'
          · exact Or.inl h'
          · exact Or.inr (List.mem_cons_of_mem _ h')

theorem mem_of_jsTrim (a : Char) (l : List Char) (hm : a ∈ jsTrim l) : a ∈ l := by
  simp only [jsTrim, List.mem_reverse] at hm
  exact (List.dropWhile_sublist _).subset
    ((List.mem_reverse).mp ((List.dropWhile_sublist _).subset hm))

theorem parseFloatJS_no_minus (l : List Char) (h : '-' ∉ l) :
    ∃ r, parseFloatJS l = parseUnsigned false r := by
  rcases hd : l.dropWhile jsWhitespace with _ | ⟨c, r⟩ <;> simp only [parseFloatJS, hd]
  · exact ⟨[], rfl⟩
  · have hc : c ∈ l := (List.dropWhile_sublist _).subset (hd ▸ List.mem_cons_self c r)
    have hne : ¬ c = '-' := fun hcc => h (hcc ▸ hc)
    rw [if_neg hne]
    split_ifs
    · exact ⟨r, rfl⟩
    · exact ⟨c :: r, rfl⟩

theorem jsNonneg_parseFloatJS (l : List Char) (h : '-' ∉ l)
    (hn : parseFloatJS l ≠ JSNum.nan) : jsNonneg (parseFloatJS l) := by
  obtain ⟨r, hr⟩ := parseFloatJS_no_minus l h
  rw [hr] at hn ⊢
  rcases parseUnsigned_false_cases r with h1 | h1 | ⟨m, f, e, h1⟩ <;> rw [h1]
  · exact trivial
  · exact absurd h1 hn
  · exact decVal_false_nonneg m f e

theorem cleanCurrency_no_minus (v : List Char) (h : '-' ∉ v) : '-' ∉ cleanCurrency v := by
  have h0 : '-' ∉ jsTrim (replaceFirst strRS [] (removeQuotes v)) := by
    intro hm
    rcases mem_replaceFirst _ _ _ _ (mem_of_jsTrim _ _ hm) with h2 | h2
    · exact absurd h2 (List.not_mem_nil _)
    · exact h (List.mem_filter.mp h2).1
  intro hm
  unfold cleanCurrency at hm
  rcases mem_replaceFirst _ _ _ _ hm with h3 | h3
  · simp at h3
  · revert h3
    split_ifs
    · exact fun h3 => h0 (List.mem_filter.mp h3).1
    · exact h0

/-- Every run of `parseCurrency` on an input without a minus sign is
nonnegative (finite nonnegative or positive infinity, never NaN). -/
theorem parseCurrency_nonneg (v : List Char) (h : '-' ∉ v) : jsNonneg (parseCurrency v) := by
  have h2 : '-' ∉ cleanCurrency v := cleanCurrency_no_minus v h
  unfold parseCurrency
  split_ifs with he
  · exact le_refl 0
  · rcases hpf : parseFloatJS (cleanCurrency v) with q | _ | _ | _
    · show jsNonneg (JSNum.finite q)
      have h3 := jsNonneg_parseFloatJS _ h2 (by rw [hpf]; exact fun hx => JSNum.noConfusion hx)
      rw [hpf] at h3; exact h3
    · exact trivial
    · have h3 := jsNonneg_parseFloatJS _ h2 (by rw [hpf]; exact fun hx => JSNum.noConfusion hx)
      rw [hpf] at h3; exact h3
    · exact le_refl 0

/-! ### The ATTENDANT unit-name discipline -/

/-- The acceptable unit-name candidate a data row offers under the
ATTENDANT layout, per the validity gates of the row loop: not a `Total`
row, at least 14 columns, a plausible date in column 12, and a column-0
value that is truthy, nonempty after stripping, and not `cliente`. -/
def attCand (row : List Char) : Option (List Char) :=
  if leadsWith strTotal (jsTrim row) then none
  else if (splitCsvLine (jsTrim row)).length < 14 then none
  else if ((splitCsvLine (jsTrim row)).getD 12 []).isEmpty
      || !(((splitCsvLine (jsTrim row)).getD 12 []).contains '/') then none
  else if ¬ ((splitCsvLine (jsTrim row)).getD 0 []).isEmpty
      ∧ ¬ (jsTrim (removeQuotes ((splitCsvLine (jsTrim row)).getD 0 []))).isEmpty
      ∧ ¬ (toLowerList (jsTrim (removeQuotes ((splitCsvLine (jsTrim row)).getD 0 []))) = strCliente) then
    some (jsTrim (removeQuotes ((splitCsvLine (jsTrim row)).getD 0 [])))
  else none

/-- All acceptable unit-name candidates of a row block, in row order. -/
def attCands (rows : List (List Char)) : List (List Char) := rows.filterMap attCand

/-- The claim's reading of the unit name: column 0 of the first valid data
row that offers an acceptable value, the default when no row does. -/
def firstAcceptable (rows : List (List Char)) : List Char := (attCands rows).headD defaultUnit

/-- The data rows of an input text: the cleaned lines after the header. -/
def rowsOf (csvText : List Char) : List (List Char) :=
  (linesOf csvText).drop (startIdx (linesOf csvText))

theorem processRow_att_fst (lines : List (List Char)) (row : List Char) (i : Nat)
    (u : List Char) :
    (processRow CsvFormat.ATTENDANT lines row i u).1 =
      if u = defaultUnit then (attCand row).getD u else u := by
  simp only [processRow, attCand]
  split_ifs with hT hL h12 hC4 <;>
    first
      | (rw [commonProcess_fst]; simp only [attUnitUpd]; split_ifs <;> simp_all)
      | simp_all

theorem processRows_att_fst (lines : List (List Char)) :
    ∀ (rows : List (List Char)) (i : Nat) (u : List Char),
      (processRows CsvFormat.ATTENDANT lines rows i u).1 =
        if u = defaultUnit then
          ((attCands rows).filter (fun v => v != defaultUnit)).headD defaultUnit
        else u := by
  intro rows
  induction rows with
  | nil =>
      intro i u
      simp only [processRows, attCands, List.filterMap_nil, List.filter_nil, List.headD_nil]
      split_ifs with h
      · exact h
      · rfl
  | cons row rest ih =>
      intro i u
      simp only [processRows]
      rcases hpr : processRow CsvFormat.ATTENDANT lines row i u with ⟨u2, o⟩
      have hu2 : u2 = if u = defaultUnit then (attCand row).getD u else u := by
        have h := processRow_att_fst lines row i u
        rw [hpr] at h
        exact h
      have hstep :
          (match (⟨u2, o⟩ : List Char × Option Transaction) with
            | (u2, none) => processRows CsvFormat.ATTENDANT lines rest (i + 1) u2
            | (u2, some tx) =>
                let p := processRows CsvFormat.ATTENDANT lines rest (i + 1) u2
                (p.1, tx :: p.2)).1 =
          (processRows CsvFormat.ATTENDANT lines rest (i + 1) u2).1 := by
        cases o <;> rfl
      rw [hstep, ih (i + 1) u2]
      by_cases hu : u = defaultUnit
      · rcases hc : attCand row with _ | v
        · have h2 : u2 = u := by rw [hu2, if_pos hu, hc]; rfl
          rw [h2, if_pos hu, if_pos hu]
          simp [attCands, List.filterMap_cons, hc]
        · by_cases hv : v = defaultUnit
          · have h2 : u2 = defaultUnit := by rw [hu2, if_pos hu, hc]; exact hv
            rw [h2, if_pos rfl, if_pos hu]
            simp [attCands, List.filterMap_cons, hc, hv]
          · have h2 : u2 = v := by rw [hu2, if_pos hu, hc]; rfl
            rw [h2, if_neg hv, if_pos hu]
            have hvb : (v != defaultUnit) = true := by
              simp [bne_iff_ne]
              exact hv
            simp [attCands, List.filterMap_cons, hc, List.filter_cons, hvb]
      · have h2 : u2 = u := by rw [hu2, if_neg hu]
        rw [h2, if_neg hu, if_neg hu]

/-! ### Valid calendar input gives an exact Date round trip -/

theorem dfc_day_shift (y m d : Int) : daysFromCivil y m 1 + (d - 1) = daysFromCivil y m d := by
  simp only [daysFromCivil, dfcZ, dfcDoy]
  split_ifs <;> omega

theorem dfc_bounds (y m d : Int) (hy1 : 100 ≤ y) (hy2 : y ≤ 9999)
    (hm1 : 1 ≤ m) (hm2 : m ≤ 12) (hd1 : 1 ≤ d) (hd2 : d ≤ daysInMonth y m) :
    -719468 ≤ daysFromCivil y m d ∧ daysFromCivil y m d ≤ 2933321 := by
  obtain ⟨hb1, hb2, _⟩ := doy_bounds y m d hm1 hm2 hd1 hd2
  simp only [daysFromCivil, dfcZ]
  split_ifs <;> omega

/-- A valid calendar date and time with a year in 100..9999 builds a valid
Date whose local getters return exactly the input fields. -/
theorem date_getters (y m d h mi s : Int) (hy1 : 100 ≤ y) (hy2 : y ≤ 9999)
    (hm1 : 1 ≤ m) (hm2 : m ≤ 12) (hd1 : 1 ≤ d) (hd2 : d ≤ daysInMonth y m)
    (hh1 : 0 ≤ h) (hh2 : h ≤ 23) (hmi1 : 0 ≤ mi) (hmi2 : mi ≤ 59)
    (hs1 : 0 ≤ s) (hs2 : s ≤ 59) :
    mkJsDate (some y) (some (m - 1)) (some d) (some h) (some mi) (some s) =
      some (daysFromCivil y m d * 86400000 + h * 3600000 + mi * 60000 + s * 1000) ∧
    getFullYear (daysFromCivil y m d * 86400000 + h * 3600000 + mi * 60000 + s * 1000) = y ∧
    getMonth (daysFromCivil y m d * 86400000 + h * 3600000 + mi * 60000 + s * 1000) = m - 1 ∧
    getDate (daysFromCivil y m d * 86400000 + h * 3600000 + mi * 60000 + s * 1000) = d ∧
    getHours (daysFromCivil y m d * 86400000 + h * 3600000 + mi * 60000 + s * 1000) = h ∧
    getMinutes (daysFromCivil y m d * 86400000 + h * 3600000 + mi * 60000 + s * 1000) = mi ∧
    getSeconds (daysFromCivil y m d * 86400000 + h * 3600000 + mi * 60000 + s * 1000) = s := by
  have hB := dfc_bounds y m d hy1 hy2 hm1 hm2 hd1 hd2
  have hdiv : (m - 1) / 12 = 0 := by omega
  have hmod : (m - 1) % 12 = m - 1 := by omega
  have h1900 : ¬ (0 ≤ y ∧ y ≤ 99) := by omega
  have hRT := civil_roundtrip y m d hm1 hm2 hd1 hd2
  have hdn : dayNumber (daysFromCivil y m d * 86400000 + h * 3600000 + mi * 60000 + s * 1000) =
      daysFromCivil y m d := by
    simp only [dayNumber]; omega
  refine ⟨?_, ?_, ?_, ?_, ?_, ?_, ?_⟩
  · simp only [mkJsDate, hdiv, hmod, if_neg h1900]
    rw [show y + 0 = y from by omega, show m - 1 + 1 = m from by omega, dfc_day_shift]
    rw [if_pos (by constructor <;> omega)]
  · simp only [getFullYear, hdn]; exact hRT.1
  · simp only [getMonth, hdn]; rw [hRT.2.1]
  · simp only [getDate, hdn]; exact hRT.2.2
  · simp only [getHours]; omega
  · simp only [getMinutes]; omega
  · simp only [getSeconds]; omega

/-! ### Concrete inputs used by examples, witnesses and counterexamples -/

def strCur1 : List Char := "R$ 15,90".toList
def strCur2 : List Char := "1.200,50".toList
def strAbc : List Char := "abc".toList
def strNeg5 : List Char := "-5".toList
def strLavadora01 : List Char := "Lavadora 01".toList
def strSecadoraTurbo : List Char := "Secadora Turbo".toList
def strLAVASECA : List Char := "LAVA-SECA".toList
def strLavaW : List Char := "Lava".toList
def strLojaSul : List Char := "Loja Sul".toList

/-- A SELF_SERVICE report with one valid data row. -/
def exSS : List Char :=
  ("Produtos,Total Venda,Data,Hora\na,b,c,d,Pix,e,Lavadora 1,f,g,2,01/03/2024,14:30:00").toList

/-- Like `exSS` but with month 13 in the date column. -/
def exC5 : List Char :=
  ("Produtos,Total Venda,Data,Hora\na,b,c,d,Pix,e,Lavadora 1,f,g,2,01/13/2024,10:30:00").toList

/-- Like `exSS` but with a non-numeric time column. -/
def exC6 : List Char :=
  ("Produtos,Total Venda,Data,Hora\na,b,c,d,Pix,e,Lavadora 1,f,g,2,01/03/2024,aa:bb:cc").toList

/-- An ATTENDANT report with one valid data row. -/
def exATT : List Char :=
  ("Nome Terminal,Venda (R$),Data,Hora\nLoja Sul,a,b,c,Secadora 2,Pix,d,e,12,f,g,h,05/03/2024,09:15:00").toList

/-- An ATTENDANT report whose first valid data row carries the sentinel
string in column 0, followed by a row with a real name. -/
def exC7 : List Char :=
  ("Nome Terminal,Venda (R$),Data,Hora\nUnidade Desconhecida,a,b,c,Secadora 2,Pix,d,e,12,f,g,h,05/03/2024,09:15:00\nLoja Sul,a,b,c,Secadora 2,Pix,d,e,12,f,g,h,05/03/2024,09:15:00").toList

/-- A text with no recognizable layout. -/
def exPlain : List Char := ("hello\nworld").toList

def dTx : Transaction :=
  { id := [], date := none, rawDate := [], rawTime := [], productName := [],
    type := CycleType.UNKNOWN, amount := JSNum.nan, paymentMethod := [],
    machine := [], dayOfWeek := none }

/-! ### Claim C1: currency normalization -/

/-- Claim C1, counterexample: the claim promises a nonnegative result for
every input string, but `parseCurrency("-5")` is `-5`, which is negative. -/
theorem claim1_counterexample :
    parseCurrency strNeg5 = JSNum.finite (-5 : ℚ) ∧ ¬ jsNonneg (parseCurrency strNeg5) := by
  have e : parseCurrency strNeg5 = JSNum.finite (decVal true 5 0 0) := rfl
  have v : decVal true 5 0 0 = (-5 : ℚ) := by norm_num [decVal]
  constructor
  · rw [e, v]
  · rw [e, v]
    show ¬ (0 ≤ (-5 : ℚ))
    norm_num

/-- Claim C1 (amended): `parseCurrency` never fails, returns `0` on empty
or unparseable input, satisfies the four quoted examples, and is
nonnegative for every input that contains no minus sign (an input with a
minus sign can produce a negative value, as the counterexample shows). -/
theorem claim1_parseCurrency :
    (∀ v : List Char, '-' ∉ v → jsNonneg (parseCurrency v)) ∧
    parseCurrency strCur1 = JSNum.finite (15.9 : ℚ) ∧
    parseCurrency strCur2 = JSNum.finite (1200.50 : ℚ) ∧
    parseCurrency [] = JSNum.finite 0 ∧
    parseCurrency strAbc = JSNum.finite 0 := by
  refine ⟨parseCurrency_nonneg, ?_, ?_, rfl, rfl⟩
  · have e : parseCurrency strCur1 = JSNum.finite (decVal false 1590 2 0) := rfl
    have v : decVal false 1590 2 0 = (15.9 : ℚ) := by norm_num [decVal]
    rw [e, v]
  · have e : parseCurrency strCur2 = JSNum.finite (decVal false 120050 2 0) := rfl
    have v : decVal false 120050 2 0 = (1200.50 : ℚ) := by norm_num [decVal]
    rw [e, v]

/-- Claim C1, witness for the nonnegativity hypothesis at a concrete input. -/
theorem claim1_witness : '-' ∉ strCur1 ∧ jsNonneg (parseCurrency strCur1) :=
  ⟨by decide, claim1_parseCurrency.1 strCur1 (by decide)⟩

/-! ### Claim C2: cycle classification -/

/-- Claim C2: `determineCycleType` is a case-insensitive ordered
first-match keyword classifier: `lava` wins over `seca`, the empty name is
UNKNOWN, and the four quoted examples hold. -/
theorem claim2_determineCycleType :
    (∀ s : List Char, hasSub strLava (toLowerList s) = true →
      determineCycleType s = CycleType.WASH) ∧
    (∀ s : List Char, hasSub strLava (toLowerList s) = false →
      hasSub strSeca (toLowerList s) = true → determineCycleType s = CycleType.DRY) ∧
    (∀ s : List Char, hasSub strLava (toLowerList s) = false →
      hasSub strSeca (toLowerList s) = false → determineCycleType s = CycleType.UNKNOWN) ∧
    determineCycleType strLavadora01 = CycleType.WASH ∧
    determineCycleType strSecadoraTurbo = CycleType.DRY ∧
    determineCycleType [] = CycleType.UNKNOWN ∧
    determineCycleType strLAVASECA = CycleType.WASH := by
  refine ⟨?_, ?_, ?_, by decide, by decide, by decide, by decide⟩
  · intro s h
    by_cases hs : s.isEmpty = true
    · rw [List.isEmpty_iff.mp hs] at h
      exact absurd h (by decide)
    · simp only [determineCycleType, if_neg hs, h, if_true]
  · intro s h1 h2
    by_cases hs : s.isEmpty = true
    · rw [List.isEmpty_iff.mp hs] at h2
      exact absurd h2 (by decide)
    · simp only [determineCycleType, if_neg hs, h1, h2, Bool.false_eq_true, if_false, if_true]
  · intro s h1 h2
    by_cases hs : s.isEmpty = true
    · simp only [determineCycleType, if_pos hs]
    · simp only [determineCycleType, if_neg hs, h1, h2, Bool.false_eq_true, if_false]

/-- Claim C2, witness for the first-match hypothesis at a concrete input. -/
theorem claim2_witness :
    hasSub strLava (toLowerList strLavaW) = true ∧ determineCycleType strLavaW = CycleType.WASH :=
  ⟨by decide, claim2_determineCycleType.1 strLavaW (by decide)⟩

/-! ### Claim C3: unknown layout degrades to an empty result -/

/-- Claim C3: when format detection returns UNKNOWN, the parse still
returns normally with no transactions, the default unit name, and the
default period whenever no period line is discoverable. -/
theorem claim3_unknown_graceful (text : List Char)
    (h : detectFormat (linesOf text) = CsvFormat.UNKNOWN) :
    (parseCSV text).transactions = [] ∧
    (parseCSV text).metadata.unitName = defaultUnit ∧
    ((∀ l ∈ (linesOf text).take 5000, hasSub strVendasDe l = false) →
      (parseCSV text).metadata.period = defaultPeriod) := by
  refine ⟨?_, ?_, fun hp => ?_⟩
  · show (processRows (detectFormat (linesOf text)) (linesOf text)
      ((linesOf text).drop (startIdx (linesOf text))) (startIdx (linesOf text)) defaultUnit).2 = []
    rw [h, processRows_unknown]
  · show (processRows (detectFormat (linesOf text)) (linesOf text)
      ((linesOf text).drop (startIdx (linesOf text))) (startIdx (linesOf text)) defaultUnit).1 = defaultUnit
    rw [h, processRows_unknown]
  · show extractPeriodGo ((linesOf text).take 5000) = defaultPeriod
    exact extractPeriodGo_default _ hp

/-- Claim C3, witness at a concrete unrecognizable input. -/
theorem claim3_witness :
    (parseCSV exPlain).transactions = [] ∧
    (parseCSV exPlain).metadata.unitName = defaultUnit ∧
    (parseCSV exPlain).metadata.period = defaultPeriod := by
  have h := claim3_unknown_graceful exPlain (by decide)
  exact ⟨h.1, h.2.1, h.2.2 (by decide)⟩

/-! ### Claim C4: reportType is ATTENDANT exactly for the ATTENDANT layout -/

/-- Claim C4: `metadata.reportType` is `"ATTENDANT"` exactly when the
detected layout is ATTENDANT, and `"SELF_SERVICE"` in every other case,
including UNKNOWN. -/
theorem claim4_reportType (text : List Char) :
    ((parseCSV text).metadata.reportType = strATT ∧
      detectFormat (linesOf text) = CsvFormat.ATTENDANT) ∨
    ((parseCSV text).metadata.reportType = strSS ∧
      ¬ detectFormat (linesOf text) = CsvFormat.ATTENDANT) := by
  by_cases h : detectFormat (linesOf text) = CsvFormat.ATTENDANT
  · refine Or.inl ⟨?_, h⟩
    show (if detectFormat (linesOf text) = CsvFormat.ATTENDANT then strATT else strSS) = strATT
    rw [if_pos h]
  · refine Or.inr ⟨?_, h⟩
    show (if detectFormat (linesOf text) = CsvFormat.ATTENDANT then strATT else strSS) = strSS
    rw [if_neg h]

/-! ### Claim C5: calendar round trip of accepted rows -/

/-- The claim's round-trip property for one transaction: every local
calendar getter of the constructed timestamp returns the field parsed from
`rawDate` and `rawTime` (month 0-based internally). -/
def calendarRoundTrip (t : Transaction) : Prop :=
  t.date.map getFullYear = dpY t.rawDate ∧
  t.date.map getMonth = (dpM t.rawDate).map (fun x => x - 1) ∧
  t.date.map getDate = dpD t.rawDate ∧
  t.date.map getHours = tpAt t.rawTime 0 ∧
  t.date.map getMinutes = tpAt t.rawTime 1 ∧
  t.date.map getSeconds = tpAt t.rawTime 2

instance (t : Transaction) : Decidable (calendarRoundTrip t) := by
  unfold calendarRoundTrip; infer_instance

/-- Claim C5, counterexample: the date gate only checks the digit shape,
so month 13 is accepted and rolls over; the row is emitted but its
timestamp fields do not match the parsed fields. -/
theorem claim5_counterexample :
    (parseCSV exC5).transactions.length = 1 ∧
    ¬ (∀ t ∈ (parseCSV exC5).transactions, calendarRoundTrip t) := by decide

/-- Claim C5 (amended): for every emitted transaction whose parsed fields
form a real calendar date and time — month 1..12, day within the month,
hour 0..23, minute and second 0..59, and a year of at least 100 (the
two-digit-year rule of the Date constructor shifts years 0..99 by 1900) —
the constructed timestamp reproduces exactly the parsed calendar fields. -/
theorem claim5_calendar_roundtrip (text : List Char) (t : Transaction)
    (ht : t ∈ (parseCSV text).transactions)
    (y m d h mi s : Int)
    (hy : dpY t.rawDate = some y) (hm : dpM t.rawDate = some m) (hd : dpD t.rawDate = some d)
    (hh : tpAt t.rawTime 0 = some h) (hmi : tpAt t.rawTime 1 = some mi)
    (hs : tpAt t.rawTime 2 = some s)
    (hy1 : 100 ≤ y) (hy2 : y ≤ 9999) (hm1 : 1 ≤ m) (hm2 : m ≤ 12)
    (hd1 : 1 ≤ d) (hd2 : d ≤ daysInMonth y m)
    (hh1 : 0 ≤ h) (hh2 : h ≤ 23) (hmi1 : 0 ≤ mi) (hmi2 : mi ≤ 59)
    (hs1 : 0 ≤ s) (hs2 : s ≤ 59) :
    calendarRoundTrip t := by
  have ht' : t ∈ (processRows (detectFormat (linesOf text)) (linesOf text)
      ((linesOf text).drop (startIdx (linesOf text))) (startIdx (linesOf text)) defaultUnit).2 := ht
  obtain ⟨_, hdate, _, _⟩ := processRows_some _ _ _ _ _ t ht'
  have hdate2 : t.date = mkJsDate (some y) (some (m - 1)) (some d) (some h) (some mi) (some s) := by
    rw [hdate]
    unfold mkDateOf
    rw [hy, hm, hd, hh, hmi, hs]
    rfl
  obtain ⟨hmk, hgy, hgm, hgd, hgh, hgmi, hgs⟩ :=
    date_getters y m d h mi s hy1 hy2 hm1 hm2 hd1 hd2 hh1 hh2 hmi1 hmi2 hs1 hs2
  unfold calendarRoundTrip
  rw [hdate2, hmk, hy, hm, hd, hh, hmi, hs]
  simp only [Option.map_some']
  exact ⟨by rw [hgy], by rw [hgm], by rw [hgd], by rw [hgh], by rw [hgmi], by rw [hgs]⟩

/-- Claim C5, witness: the round trip holds for the concrete valid row. -/
theorem claim5_witness : calendarRoundTrip ((parseCSV exSS).transactions.getD 0 dTx) :=
  claim5_calendar_roundtrip exSS _ (getD_zero_mem _ _ (by decide)) 2024 3 1 14 30 0
    (by decide) (by decide) (by decide) (by decide) (by decide) (by decide)
    (by decide) (by decide) (by decide) (by decide) (by decide) (by decide)
    (by decide) (by decide) (by decide) (by decide) (by decide) (by decide)

/-! ### Claim C6: dayOfWeek of emitted transactions -/

/-- The claim's property for one transaction: `dayOfWeek` is an integer in
0..6 (`none` models the NaN produced by an Invalid Date). -/
def dayOfWeekOK (t : Transaction) : Bool :=
  match t.dayOfWeek with
  | some k => decide (0 ≤ k ∧ k ≤ 6)
  | none => false

/-- Claim C6, counterexample: a row whose time string has non-numeric
components is still accepted, but its Date is invalid, so `getDay()` is
NaN, not an integer in 0..6. -/
theorem claim6_counterexample :
    (parseCSV exC6).transactions.length = 1 ∧
    ¬ (∀ t ∈ (parseCSV exC6).transactions, dayOfWeekOK t = true) := by decide

/-- Claim C6 (amended): for every emitted transaction whose constructed
timestamp is a valid Date (in particular the time components parsed to
integers and the result is in range), `dayOfWeek` is `getDay()` of that
timestamp and lies in 0..6; rows with non-numeric time components instead
carry the NaN of an Invalid Date. -/
theorem claim6_dayOfWeek (text : List Char) (t : Transaction)
    (ht : t ∈ (parseCSV text).transactions) (hv : t.date.isSome = true) :
    dayOfWeekOK t = true ∧ t.dayOfWeek = t.date.map getDay := by
  have ht' : t ∈ (processRows (detectFormat (linesOf text)) (linesOf text)
      ((linesOf text).drop (startIdx (linesOf text))) (startIdx (linesOf text)) defaultUnit).2 := ht
  obtain ⟨_, _, hdow, _⟩ := processRows_some _ _ _ _ _ t ht'
  obtain ⟨ms, hms⟩ := Option.isSome_iff_exists.mp hv
  refine ⟨?_, hdow⟩
  simp only [dayOfWeekOK, hdow, hms, Option.map_some']
  rw [decide_eq_true_eq]
  simp only [getDay, dayNumber]
  omega

/-- Claim C6, witness at the concrete valid row. -/
theorem claim6_witness : dayOfWeekOK ((parseCSV exSS).transactions.getD 0 dTx) = true :=
  (claim6_dayOfWeek exSS _ (getD_zero_mem _ _ (by decide)) (by decide)).1

/-! ### Claim C7: the ATTENDANT unit name -/

/-- Claim C7, counterexample: the acceptable column-0 values of the two
valid data rows are the sentinel string itself and `Loja Sul`; the claim
says the unit name is the first of them, set once and never overwritten,
but the sentinel does not stick and the second row overwrites it. -/
theorem claim7_counterexample :
    detectFormat (linesOf exC7) = CsvFormat.ATTENDANT ∧
    attCands (rowsOf exC7) = [defaultUnit, strLojaSul] ∧
    firstAcceptable (rowsOf exC7) = defaultUnit ∧
    (parseCSV exC7).metadata.unitName = strLojaSul ∧
    ¬ (parseCSV exC7).metadata.unitName = firstAcceptable (rowsOf exC7) := by decide

/-- Claim C7 (amended): under the ATTENDANT layout, the unit name is the
first acceptable column-0 value (quotes stripped, trimmed, nonempty, not
`cliente` case-insensitively) among the valid data rows that differs from
the sentinel `Unidade Desconhecida`, and the sentinel when there is none;
an acceptable value equal to the sentinel does not stick and later rows
may overwrite it. -/
theorem claim7_unitName (text : List Char)
    (h : detectFormat (linesOf text) = CsvFormat.ATTENDANT) :
    (parseCSV text).metadata.unitName =
      ((attCands (rowsOf text)).filter (fun v => v != defaultUnit)).headD defaultUnit := by
  have he : (parseCSV text).metadata.unitName =
      (processRows (detectFormat (linesOf text)) (linesOf text) (rowsOf text)
        (startIdx (linesOf text)) defaultUnit).1 := rfl
  rw [he, h, processRows_att_fst, if_pos rfl]

/-- Claim C7, witness at a concrete ATTENDANT input. -/
theorem claim7_witness :
    (parseCSV exATT).metadata.unitName =
      ((attCands (rowsOf exATT)).filter (fun v => v != defaultUnit)).headD defaultUnit :=
  claim7_unitName exATT (by decide)

/-! ### Claim C8: junk lines do not change the parse -/

/-- Claim C8: inserting blank, whitespace-only or delimiter-only lines
anywhere in the raw line list leaves the whole parse result unchanged —
in particular the detected layout and the transaction count. -/
theorem claim8_junk_lines (pre junk post : List (List Char))
    (h : ∀ l ∈ junk, isLineEmpty l = true) :
    parseCSVLines (pre ++ junk ++ post) = parseCSVLines (pre ++ post) ∧
    detectFormat (filteredLines (pre ++ junk ++ post)) =
      detectFormat (filteredLines (pre ++ post)) ∧
    (parseCSVLines (pre ++ junk ++ post)).transactions.length =
      (parseCSVLines (pre ++ post)).transactions.length := by
  have hj : junk.filter (fun l => !(isLineEmpty l)) = [] := by
    rw [List.filter_eq_nil_iff]
    intro a ha
    rw [h a ha]
    simp
  have hf : filteredLines (pre ++ junk ++ post) = filteredLines (pre ++ post) := by
    simp [filteredLines, List.filter_append, hj]
  have hp : parseCSVLines (pre ++ junk ++ post) = parseCSVLines (pre ++ post) := by
    unfold parseCSVLines
    rw [hf]
  exact ⟨hp, by rw [hf], by rw [hp]⟩

def preEx : List (List Char) := []
def junkEx : List (List Char) := [[], (" ".toList), (",,,,".toList)]
def postEx : List (List Char) := splitLines exATT

/-- Claim C8, witness: concrete junk lines in front of a concrete report. -/
theorem claim8_witness :
    parseCSVLines (preEx ++ junkEx ++ postEx) = parseCSVLines (preEx ++ postEx) ∧
    detectFormat (filteredLines (preEx ++ junkEx ++ postEx)) =
      detectFormat (filteredLines (preEx ++ postEx)) ∧
    (parseCSVLines (preEx ++ junkEx ++ postEx)).transactions.length =
      (parseCSVLines (preEx ++ postEx)).transactions.length :=
  claim8_junk_lines preEx junkEx postEx (by decide)

/-! ### Claim C9: the parse is total and only filters -/

/-- Claim C9: `parseCSV` is a total function — it returns a `ParseResult`
for every input text (in this embedding every partial JavaScript operation
is modelled with its defaulting behavior, and no operation the source uses
can throw) — and degradation only filters: there are never more
transactions than cleaned input lines. -/
theorem claim9_total (text : List Char) :
    (parseCSV text).transactions.length ≤ (linesOf text).length := by
  have h1 : (parseCSV text).transactions.length ≤
      ((linesOf text).drop (startIdx (linesOf text))).length := by
    show (processRows (detectFormat (linesOf text)) (linesOf text)
      ((linesOf text).drop (startIdx (linesOf text))) (startIdx (linesOf text)) defaultUnit).2.length ≤ _
    exact processRows_len _ _ _ _ _
  refine h1.trans ?_
  rw [List.length_drop]
  omega

/-! ### Claim C10: productName and machine are copies -/

/-- Claim C10: every emitted transaction carries the same raw machine
column in both `productName` and `machine`. -/
theorem claim10_productName_machine (text : List Char) (t : Transaction)
    (ht : t ∈ (parseCSV text).transactions) : t.productName = t.machine := by
  have ht' : t ∈ (processRows (detectFormat (linesOf text)) (linesOf text)
      ((linesOf text).drop (startIdx (linesOf text))) (startIdx (linesOf text)) defaultUnit).2 := ht
  exact ((processRows_some _ _ _ _ _ t ht').1).symm

/-- Claim C10, witness at the concrete valid row. -/
theorem claim10_witness :
    ((parseCSV exSS).transactions.getD 0 dTx).productName =
      ((parseCSV exSS).transactions.getD 0 dTx).machine :=
  claim10_productName_machine exSS _ (getD_zero_mem _ _ (by decide))
